import Mathlib

/-!
Verification development for the blackjack counter trainer
(src/Pages/BlackjackTrainer.jsx).

The component keeps three pieces of mutable state relevant to the shoe:
`cardsRemaining` (a JS object mapping rank strings to numbers),
`runningCount` (a number, always an integer in practice) and `history`
(an array of undo entries).  We shallowly embed JS numbers as `Jv`
(either a rational number, NaN, or the `undefined` value read from a
missing object key), JS objects as association lists with the
spread-update semantics of `\x7b...obj, [k]: v\x7d`, and each handler as a
pure function on an explicit `TrainerState`.

The modules imported from outside src/ (RulesEngine, CountingSystems,
StrategyEngine) are not part of the repository snapshot; where a claim
needs them they are modelled from the spec and marked as such.
-/

/-- Shallow embedding of the JS runtime values that appear in the shoe
bookkeeping: a (float) number modelled as a rational, the NaN value
produced by arithmetic on non-numbers, and the `undefined` value read
from a missing object key. -/
inductive Jv where
  | undef : Jv
  | nan : Jv
  | num : ℚ → Jv
deriving DecidableEq, Repr

/-- JS `+` on the values that occur here: number + number adds, any
operand that is `undefined` or NaN yields NaN. -/
def jsAdd : Jv → Jv → Jv
  | Jv.num a, Jv.num b => Jv.num (a + b)
  | _, _ => Jv.nan

/-- JS `-`, same coercion behaviour as `jsAdd`. -/
def jsSub : Jv → Jv → Jv
  | Jv.num a, Jv.num b => Jv.num (a - b)
  | _, _ => Jv.nan

/-- JS `*`. -/
def jsMul : Jv → Jv → Jv
  | Jv.num a, Jv.num b => Jv.num (a * b)
  | _, _ => Jv.nan

/-- JS `/` on numbers.  Division by zero yields Infinity in JS; every
division in the source is guarded by a positivity test on the
denominator, so we map that dead case to NaN. -/
def jsDiv : Jv → Jv → Jv
  | Jv.num a, Jv.num b => if b = 0 then Jv.nan else Jv.num (a / b)
  | _, _ => Jv.nan

/-- JS `<=`: false whenever an operand is NaN or `undefined`. -/
def jsLe : Jv → Jv → Bool
  | Jv.num a, Jv.num b => decide (a ≤ b)
  | _, _ => false

/-- JS `>=`: false whenever an operand is NaN or `undefined`. -/
def jsGe : Jv → Jv → Bool
  | Jv.num a, Jv.num b => decide (b ≤ a)
  | _, _ => false

/-- JS `>`: false whenever an operand is NaN or `undefined`. -/
def jsGt : Jv → Jv → Bool
  | Jv.num a, Jv.num b => decide (b < a)
  | _, _ => false

/-- JS `===` on these values (NaN is not strictly equal to itself). -/
def jsEq : Jv → Jv → Bool
  | Jv.num a, Jv.num b => decide (a = b)
  | Jv.undef, Jv.undef => true
  | _, _ => false

/-- JS `x || 0` for the values occurring here: every falsy value
(0, NaN, `undefined`) becomes 0, other numbers pass through. -/
def jsOrZero : Jv → Jv
  | Jv.num a => if a = 0 then Jv.num 0 else Jv.num a
  | _ => Jv.num 0

/-- Reading `obj[k]` from a JS object, embedded as an association list
in property insertion order; a missing key reads as `undefined`. -/
def getKey : List (String × Jv) → String → Jv
  | [], _ => Jv.undef
  | (k, v) :: rest, key => if k = key then v else getKey rest key

/-- The object produced by `\x7b ...obj, [k]: v \x7d` (equally, by assigning
`obj[k] = v` to a copy): an existing key is updated in place keeping its
position, a new key is appended at the end. -/
def setKey : List (String × Jv) → String → Jv → List (String × Jv)
  | [], key, v => [(key, v)]
  | (k, w) :: rest, key, v =>
      if k = key then (k, v) :: rest else (k, w) :: setKey rest key v

/-- One entry of the `history` array.  `applyCard` pushes
`\x7bcard, weight, rc, remaining\x7d` while `applyQuickCount` pushes
`\x7bquick, card, rc, remaining\x7d`; `undo` only reads `rc` and `remaining`. -/
inductive HistEntry where
  | deal : String → Int → Int → List (String × Jv) → HistEntry
  | quick : Int → String → Int → List (String × Jv) → HistEntry
deriving DecidableEq, Repr

/-- The prior running count stored in a history entry. -/
def HistEntry.rcOf : HistEntry → Int
  | HistEntry.deal _ _ rc _ => rc
  | HistEntry.quick _ _ rc _ => rc

/-- The prior shoe snapshot stored in a history entry. -/
def HistEntry.remainingOf : HistEntry → List (String × Jv)
  | HistEntry.deal _ _ _ m => m
  | HistEntry.quick _ _ _ m => m

/-- The mutable component state touched by the shoe operations:
`cardsRemaining`, `runningCount` and `history`.  The running count is
an integer: it starts at 0 and only integer tag weights are ever added
to or subtracted from it. -/
structure TrainerState where
  cards : List (String × Jv)
  rc : Int
  history : List HistEntry
deriving DecidableEq, Repr

/-- The ten rank keys of the shoe object, in the insertion order used
by `resetShoe`. -/
def ranks : List String :=
  ["2", "3", "4", "5", "6", "7", "8", "9", "10", "A"]

/-- Capacity of a rank for a given deck count: 16 per deck for the
ten-bucket, 4 per deck for every other rank. -/
def cap (numDecks : Nat) (r : String) : Int :=
  if r = "10" then (numDecks : Int) * 16 else (numDecks : Int) * 4

/-- The fresh shoe object built by `resetShoe`: ranks 2..9 at
numDecks*4, then '10' at numDecks*16, then 'A' at numDecks*4. -/
def freshCards (numDecks : Nat) : List (String × Jv) :=
  [("2", Jv.num ((numDecks * 4 : ℕ) : ℚ)), ("3", Jv.num ((numDecks * 4 : ℕ) : ℚ)),
   ("4", Jv.num ((numDecks * 4 : ℕ) : ℚ)), ("5", Jv.num ((numDecks * 4 : ℕ) : ℚ)),
   ("6", Jv.num ((numDecks * 4 : ℕ) : ℚ)), ("7", Jv.num ((numDecks * 4 : ℕ) : ℚ)),
   ("8", Jv.num ((numDecks * 4 : ℕ) : ℚ)), ("9", Jv.num ((numDecks * 4 : ℕ) : ℚ)),
   ("10", Jv.num ((numDecks * 16 : ℕ) : ℚ)), ("A", Jv.num ((numDecks * 4 : ℕ) : ℚ))]

/-- `resetShoe`: reinitialise every rank to capacity, running count to
0, clear the history (the recommendation display it also clears is
presentation state outside this model). -/
def resetShoe (numDecks : Nat) : TrainerState :=
  { cards := freshCards numDecks, rc := 0, history := [] }

/-- Modelled from the spec: the CountingSystems module is not under
src/.  The spec requires at minimum the balanced level-1 (Hi-Lo)
system: ranks 2-6 map to +1, 7-9 to 0, 10 and A to -1; the tag table
has no entries for other strings. -/
def hiLoTags (r : String) : Option Int :=
  if ["2", "3", "4", "5", "6"].contains r then some 1
  else if ["7", "8", "9"].contains r then some 0
  else if ["10", "A"].contains r then some (-1)
  else none

/-- `applyCard(card)`: no-op when `cardsRemaining[card] <= 0`
(note that the test is false for a missing key, whose value reads as
`undefined`); otherwise look up the tag weight (`tags[card] || 0`),
decrement the rank, add the weight to the running count and push a
history entry holding the pre-mutation snapshot.  `tags` is the
resolved tag table of the active counting system. -/
def applyCard (tags : String → Option Int) (card : String)
    (s : TrainerState) : TrainerState :=
  if jsLe (getKey s.cards card) (Jv.num 0) = true then s
  else
    let weight := (tags card).getD 0
    { cards := setKey s.cards card (jsSub (getKey s.cards card) (Jv.num 1)),
      rc := s.rc + weight,
      history := s.history ++ [HistEntry.deal card weight s.rc s.cards] }

/-- `removeCard(card)` (manual correction): no-op when the rank is
already at capacity; otherwise increment the rank and subtract the tag
weight from the running count.  No history entry is pushed. -/
def removeCard (numDecks : Nat) (tags : String → Option Int)
    (card : String) (s : TrainerState) : TrainerState :=
  let maxCards : ℚ := if card = "10" then ((numDecks * 16 : ℕ) : ℚ) else ((numDecks * 4 : ℕ) : ℚ)
  if jsGe (getKey s.cards card) (Jv.num maxCards) = true then s
  else
    let weight := (tags card).getD 0
    { cards := setKey s.cards card (jsAdd (getKey s.cards card) (Jv.num 1)),
      rc := s.rc - weight,
      history := s.history }

/-- `getTotalCardsRemaining`: `Object.values(cardsRemaining).reduce((sum, c) => sum + c, 0)`. -/
def getTotalCardsRemaining (m : List (String × Jv)) : Jv :=
  (m.map Prod.snd).foldl jsAdd (Jv.num 0)

/-- The for-loop in `applyQuickCount` that scans a bucket's rank list
for the first rank with a positive remaining count. -/
def findPositive (m : List (String × Jv)) : List String → Option String
  | [] => none
  | c :: rest => if jsGt (getKey m c) (Jv.num 0) = true then some c
                 else findPositive m rest

/-- The card-selection block of `applyQuickCount`: the `value === 1`
branch scans 2,3,4,5,6 in order, the `value === 0` branch scans 7,8,9,
and the `value === -1` branch tries '10' then 'A'; any other value
selects nothing. -/
def quickPick (value : Int) (m : List (String × Jv)) : Option String :=
  if value = 1 then findPositive m ["2", "3", "4", "5", "6"]
  else if value = 0 then findPositive m ["7", "8", "9"]
  else if value = -1 then
    (if jsGt (getKey m "10") (Jv.num 0) = true then some "10"
     else if jsGt (getKey m "A") (Jv.num 0) = true then some "A"
     else none)
  else none

/-- `applyQuickCount(value)`: return early when the total remaining is
not positive; pick a card from the bucket selected by `value`; when a
card was found decrement it, add `value` to the running count and push
a quick history entry with the pre-mutation snapshot; otherwise do
nothing. -/
def applyQuickCount (value : Int) (s : TrainerState) : TrainerState :=
  if jsLe (getTotalCardsRemaining s.cards) (Jv.num 0) = true then s
  else
    match quickPick value s.cards with
    | none => s
    | some c =>
        { cards := setKey s.cards c (jsSub (getKey s.cards c) (Jv.num 1)),
          rc := s.rc + value,
          history := s.history ++ [HistEntry.quick value c s.rc s.cards] }

/-- `undo()`: no-op when the history is empty; otherwise restore the
running count and shoe snapshot stored in the last entry verbatim and
drop that entry (`history.slice(0, -1)`). -/
def undoStep (s : TrainerState) : TrainerState :=
  match s.history.getLast? with
  | none => s
  | some e =>
      { cards := e.remainingOf, rc := e.rcOf, history := s.history.dropLast }

/-- A view of a well-formed shoe object: one integer per rank key, in
the fixed key order produced by `resetShoe`.  Every shoe reachable by
the card operations from a fresh shoe has this shape. -/
structure ShoeVec where
  c2 : ℤ
  c3 : ℤ
  c4 : ℤ
  c5 : ℤ
  c6 : ℤ
  c7 : ℤ
  c8 : ℤ
  c9 : ℤ
  c10 : ℤ
  cA : ℤ
deriving DecidableEq, Repr

/-- The association list denoted by a `ShoeVec`. -/
def ShoeVec.toMap (v : ShoeVec) : List (String × Jv) :=
  [("2", Jv.num (v.c2 : ℚ)), ("3", Jv.num (v.c3 : ℚ)),
   ("4", Jv.num (v.c4 : ℚ)), ("5", Jv.num (v.c5 : ℚ)),
   ("6", Jv.num (v.c6 : ℚ)), ("7", Jv.num (v.c7 : ℚ)),
   ("8", Jv.num (v.c8 : ℚ)), ("9", Jv.num (v.c9 : ℚ)),
   ("10", Jv.num (v.c10 : ℚ)), ("A", Jv.num (v.cA : ℚ))]

/-- Reading a rank from the view. -/
def ShoeVec.get (v : ShoeVec) (r : String) : ℤ :=
  if r = "2" then v.c2 else if r = "3" then v.c3
  else if r = "4" then v.c4 else if r = "5" then v.c5
  else if r = "6" then v.c6 else if r = "7" then v.c7
  else if r = "8" then v.c8 else if r = "9" then v.c9
  else if r = "10" then v.c10 else if r = "A" then v.cA else 0

/-- Writing a rank in the view. -/
def ShoeVec.set (v : ShoeVec) (r : String) (x : ℤ) : ShoeVec :=
  if r = "2" then { v with c2 := x } else if r = "3" then { v with c3 := x }
  else if r = "4" then { v with c4 := x } else if r = "5" then { v with c5 := x }
  else if r = "6" then { v with c6 := x } else if r = "7" then { v with c7 := x }
  else if r = "8" then { v with c8 := x } else if r = "9" then { v with c9 := x }
  else if r = "10" then { v with c10 := x } else if r = "A" then { v with cA := x }
  else v

/-- All ranks within 0 and capacity for the given deck count. -/
def ShoeVec.bounded (numDecks : Nat) (v : ShoeVec) : Prop :=
  (0 ≤ v.c2 ∧ v.c2 ≤ cap numDecks "2") ∧ (0 ≤ v.c3 ∧ v.c3 ≤ cap numDecks "3") ∧
  (0 ≤ v.c4 ∧ v.c4 ≤ cap numDecks "4") ∧ (0 ≤ v.c5 ∧ v.c5 ≤ cap numDecks "5") ∧
  (0 ≤ v.c6 ∧ v.c6 ≤ cap numDecks "6") ∧ (0 ≤ v.c7 ∧ v.c7 ≤ cap numDecks "7") ∧
  (0 ≤ v.c8 ∧ v.c8 ≤ cap numDecks "8") ∧ (0 ≤ v.c9 ∧ v.c9 ≤ cap numDecks "9") ∧
  (0 ≤ v.c10 ∧ v.c10 ≤ cap numDecks "10") ∧ (0 ≤ v.cA ∧ v.cA ≤ cap numDecks "A")

/-- All ranks non-negative. -/
def ShoeVec.nonneg (v : ShoeVec) : Prop :=
  0 ≤ v.c2 ∧ 0 ≤ v.c3 ∧ 0 ≤ v.c4 ∧ 0 ≤ v.c5 ∧ 0 ≤ v.c6 ∧
  0 ≤ v.c7 ∧ 0 ≤ v.c8 ∧ 0 ≤ v.c9 ∧ 0 ≤ v.c10 ∧ 0 ≤ v.cA

/-- Total number of cards in the view. -/
def ShoeVec.total (v : ShoeVec) : ℤ :=
  v.c2 + v.c3 + v.c4 + v.c5 + v.c6 + v.c7 + v.c8 + v.c9 + v.c10 + v.cA

/-- The view of a fresh shoe. -/
def freshVec (numDecks : Nat) : ShoeVec :=
  { c2 := (numDecks : ℤ) * 4, c3 := (numDecks : ℤ) * 4, c4 := (numDecks : ℤ) * 4,
    c5 := (numDecks : ℤ) * 4, c6 := (numDecks : ℤ) * 4, c7 := (numDecks : ℤ) * 4,
    c8 := (numDecks : ℤ) * 4, c9 := (numDecks : ℤ) * 4, c10 := (numDecks : ℤ) * 16,
    cA := (numDecks : ℤ) * 4 }

/-- The fixed priority order of each quick-count bucket as stated by
the spec: +1 scans 2,3,4,5,6; 0 scans 7,8,9; -1 scans 10 then A. -/
def bucketRanks (value : Int) : List String :=
  if value = 1 then ["2", "3", "4", "5", "6"]
  else if value = 0 then ["7", "8", "9"]
  else if value = -1 then ["10", "A"]
  else []

/-- One user-level shoe operation. -/
inductive Op where
  | apply : String → Op
  | remove : String → Op
  | quick : Int → Op
  | undo : Op
  | reset : Op
deriving DecidableEq, Repr

/-- An operation uses only the ten rank keys and the three quick
buckets. -/
def validOp : Op → Bool
  | Op.apply r => ranks.contains r
  | Op.remove r => ranks.contains r
  | Op.quick v => v == 1 || v == 0 || v == -1
  | Op.undo => true
  | Op.reset => true

/-- Validity of a whole operation sequence. -/
def validOps (ops : List Op) : Bool :=
  ops.all validOp

/-- Executing one operation against the component state. -/
def stepOp (numDecks : Nat) (tags : String → Option Int)
    (s : TrainerState) : Op → TrainerState
  | Op.apply r => applyCard tags r s
  | Op.remove r => removeCard numDecks tags r s
  | Op.quick v => applyQuickCount v s
  | Op.undo => undoStep s
  | Op.reset => resetShoe numDecks

/-- Executing an operation sequence from a fresh shoe. -/
def runOps (numDecks : Nat) (tags : String → Option Int)
    (ops : List Op) : TrainerState :=
  ops.foldl (stepOp numDecks tags) (resetShoe numDecks)

/-- The inductive invariant: the current shoe and every history
snapshot are well-formed and within capacity. -/
def InvState (numDecks : Nat) (s : TrainerState) : Prop :=
  (∃ v : ShoeVec, s.cards = v.toMap ∧ v.bounded numDecks) ∧
  ∀ e ∈ s.history, ∃ v : ShoeVec, e.remainingOf = v.toMap ∧ v.bounded numDecks

/-- The casino rule configuration consumed by the engine (spec section
3); only `das`, `lateSurrender` and `insurance` are read by the legacy
decision code embedded below. -/
structure Rules where
  numDecks : Nat
  penetration : ℚ
  dealerHitsSoft17 : Bool
  blackjackPays : ℚ
  enhc : Bool
  das : Bool
  lateSurrender : Bool
  earlySurrender : Bool
  insurance : Bool
  resplitAces : Bool
  hitSplitAces : Bool
  countingSystem : String

/-- Modelled from the spec: the RulesEngine module that exports
`DEFAULT_COMPREHENSIVE_RULES` is not under src/.  The quick-start
button labels the default configuration as six decks, S17, DAS and a
3:2 payout; the spec notes insurance is offered at TC at least +3 and
names the balanced level-1 counting system. -/
def DEFAULT_COMPREHENSIVE_RULES : Rules :=
  { numDecks := 6, penetration := 3 / 4, dealerHitsSoft17 := false,
    blackjackPays := 3 / 2, enhc := false, das := true,
    lateSurrender := false, earlySurrender := false, insurance := true,
    resplitAces := false, hitSplitAces := false, countingSystem := "hilo" }

/-- A rules value that differs from the default only in `das`; the
basic-strategy table reads no other field. -/
def mkRulesDas (das : Bool) : Rules :=
  { DEFAULT_COMPREHENSIVE_RULES with das := das }

/-- The leading decimal digits of a string. -/
def leadingDigits : List Char → List Char
  | [] => []
  | c :: rest => if c.isDigit then c :: leadingDigits rest else []

/-- The numeric value of a digit list. -/
def digitsToNat (l : List Char) : Nat :=
  l.foldl (fun acc c => acc * 10 + (c.toNat - 48)) 0

/-- JS `parseInt` restricted to the inputs this component produces
(strings of decimal digits, or rank letters): the leading digits are
parsed, and a string with no leading digit parses as NaN.  Whitespace,
signs and radix arguments never occur here. -/
def jsParseInt (s : String) : Jv :=
  let ds := leadingDigits s.toList
  if ds.isEmpty then Jv.nan else Jv.num ((digitsToNat ds : ℕ) : ℚ)

/-- JS `[n₁,...,nₖ].includes(d)` for numeric literal lists. -/
def includesNum (l : List ℚ) (d : Jv) : Bool :=
  match d with
  | Jv.num q => l.any (fun x => decide (x = q))
  | _ => false

/-- `getBasicStrategyActionLegacy(handType, handValue, dealer, rules)`:
the inline basic-strategy fallback table.  The trailing catch-all
`return 'Hit'` at the end of the function body (line 336) is reached
only when none of the branch tables matched. -/
def getBasicStrategyActionLegacy (handType handValue : String)
    (dealer : Jv) (rules : Rules) : String :=
  if handType = "hard" then
    let v := jsParseInt handValue
    if jsGe v (Jv.num 17) = true then "Stand"
    else if jsEq v (Jv.num 16) = true then
      (if includesNum [2, 3, 4, 5, 6] dealer then "Stand" else "Hit")
    else if jsEq v (Jv.num 15) = true then
      (if includesNum [2, 3, 4, 5, 6] dealer then "Stand" else "Hit")
    else if jsEq v (Jv.num 14) = true then
      (if includesNum [2, 3, 4, 5, 6] dealer then "Stand" else "Hit")
    else if jsEq v (Jv.num 13) = true then
      (if includesNum [2, 3, 4, 5, 6] dealer then "Stand" else "Hit")
    else if jsEq v (Jv.num 12) = true then
      (if includesNum [4, 5, 6] dealer then "Stand" else "Hit")
    else if jsEq v (Jv.num 11) = true then "Double"
    else if jsEq v (Jv.num 10) = true then
      (if includesNum [2, 3, 4, 5, 6, 7, 8, 9] dealer then "Double" else "Hit")
    else if jsEq v (Jv.num 9) = true then
      (if includesNum [3, 4, 5, 6] dealer then "Double" else "Hit")
    else "Hit"
  else if handType = "soft" then
    let v := jsParseInt handValue
    if jsEq v (Jv.num 9) = true then "Stand"
    else if jsEq v (Jv.num 8) = true then
      (if includesNum [2, 3, 4, 5, 6] dealer then "Double" else "Stand")
    else if jsEq v (Jv.num 7) = true then
      (if includesNum [3, 4, 5, 6] dealer then "Double"
       else if includesNum [2, 7, 8] dealer then "Stand" else "Hit")
    else if jsEq v (Jv.num 6) = true then
      (if includesNum [3, 4, 5, 6] dealer then "Double" else "Hit")
    else if jsEq v (Jv.num 5) = true ∨ jsEq v (Jv.num 4) = true then
      (if includesNum [4, 5, 6] dealer then "Double" else "Hit")
    else if jsEq v (Jv.num 3) = true ∨ jsEq v (Jv.num 2) = true then
      (if includesNum [5, 6] dealer then "Double" else "Hit")
    else "Hit"
  else if handType = "pairs" then
    if handValue = "A" then "Split"
    else if handValue = "10" then "Stand"
    else if handValue = "9" then
      (if includesNum [2, 3, 4, 5, 6, 8, 9] dealer then "Split" else "Stand")
    else if handValue = "8" then "Split"
    else if handValue = "7" then
      (if includesNum [2, 3, 4, 5, 6, 7] dealer then "Split" else "Hit")
    else if handValue = "6" then
      (if includesNum [2, 3, 4, 5, 6] dealer then
        (if rules.das then "Split" else "Hit") else "Hit")
    else if handValue = "5" then "Double"
    else if handValue = "4" then
      (if includesNum [5, 6] dealer ∧ rules.das then "Split" else "Hit")
    else if handValue = "3" ∨ handValue = "2" then
      (if includesNum [2, 3, 4, 5, 6, 7] dealer ∧ rules.das then "Split" else "Hit")
    else "Hit"
  else "Hit"

/-- Instrumented copy of `getBasicStrategyActionLegacy` that returns
`none` exactly where the source falls through to a default instead of
hitting an explicit table entry: at the end of the soft chain, at the
end of the pairs chain, and at the final catch-all for an unknown hand
type (line 336); the `return 'Hit'` inside the hard branch (line 316)
is the explicit entry for hard totals of at most 8. -/
def basicStrategyEntry? (handType handValue : String)
    (dealer : Jv) (rules : Rules) : Option String :=
  if handType = "hard" then
    let v := jsParseInt handValue
    if jsGe v (Jv.num 17) = true then some "Stand"
    else if jsEq v (Jv.num 16) = true then
      some (if includesNum [2, 3, 4, 5, 6] dealer then "Stand" else "Hit")
    else if jsEq v (Jv.num 15) = true then
      some (if includesNum [2, 3, 4, 5, 6] dealer then "Stand" else "Hit")
    else if jsEq v (Jv.num 14) = true then
      some (if includesNum [2, 3, 4, 5, 6] dealer then "Stand" else "Hit")
    else if jsEq v (Jv.num 13) = true then
      some (if includesNum [2, 3, 4, 5, 6] dealer then "Stand" else "Hit")
    else if jsEq v (Jv.num 12) = true then
      some (if includesNum [4, 5, 6] dealer then "Stand" else "Hit")
    else if jsEq v (Jv.num 11) = true then some "Double"
    else if jsEq v (Jv.num 10) = true then
      some (if includesNum [2, 3, 4, 5, 6, 7, 8, 9] dealer then "Double" else "Hit")
    else if jsEq v (Jv.num 9) = true then
      some (if includesNum [3, 4, 5, 6] dealer then "Double" else "Hit")
    else some "Hit"
  else if handType = "soft" then
    let v := jsParseInt handValue
    if jsEq v (Jv.num 9) = true then some "Stand"
    else if jsEq v (Jv.num 8) = true then
      some (if includesNum [2, 3, 4, 5, 6] dealer then "Double" else "Stand")
    else if jsEq v (Jv.num 7) = true then
      some (if includesNum [3, 4, 5, 6] dealer then "Double"
       else if includesNum [2, 7, 8] dealer then "Stand" else "Hit")
    else if jsEq v (Jv.num 6) = true then
      some (if includesNum [3, 4, 5, 6] dealer then "Double" else "Hit")
    else if jsEq v (Jv.num 5) = true ∨ jsEq v (Jv.num 4) = true then
      some (if includesNum [4, 5, 6] dealer then "Double" else "Hit")
    else if jsEq v (Jv.num 3) = true ∨ jsEq v (Jv.num 2) = true then
      some (if includesNum [5, 6] dealer then "Double" else "Hit")
    else none
  else if handType = "pairs" then
    if handValue = "A" then some "Split"
    else if handValue = "10" then some "Stand"
    else if handValue = "9" then
      some (if includesNum [2, 3, 4, 5, 6, 8, 9] dealer then "Split" else "Stand")
    else if handValue = "8" then some "Split"
    else if handValue = "7" then
      some (if includesNum [2, 3, 4, 5, 6, 7] dealer then "Split" else "Hit")
    else if handValue = "6" then
      some (if includesNum [2, 3, 4, 5, 6] dealer then
        (if rules.das then "Split" else "Hit") else "Hit")
    else if handValue = "5" then some "Double"
    else if handValue = "4" then
      some (if includesNum [5, 6] dealer ∧ rules.das then "Split" else "Hit")
    else if handValue = "3" ∨ handValue = "2" then
      some (if includesNum [2, 3, 4, 5, 6, 7] dealer ∧ rules.das then "Split" else "Hit")
    else none
  else none

/-- The dealer value computed by the recommendation code:
`dealerCard === 'A' ? 11 : parseInt(dealerCard)`. -/
def dealerOf (dealerCard : String) : Jv :=
  if dealerCard = "A" then Jv.num 11 else jsParseInt dealerCard

/-- Every (handType, handValue) pair reachable from the hand selector:
hard totals 4..20, soft kickers 2..9, and the ten pair ranks. -/
def reachableHands : List (String × String) :=
  (["4", "5", "6", "7", "8", "9", "10", "11", "12", "13", "14", "15",
    "16", "17", "18", "19", "20"].map (fun v => ("hard", v))) ++
  (["2", "3", "4", "5", "6", "7", "8", "9"].map (fun v => ("soft", v))) ++
  (ranks.map (fun v => ("pairs", v)))

/-- The signed rendering of the rounded true count used in the legacy
notes: `(tc >= 0 ? '+' : '') + tc`. -/
def tcShow (tc : Int) : String :=
  (if 0 ≤ tc then "+" else "") ++ toString tc

/-- The selection core of `getRecommendationLegacy` after the dealer
conversion: the insurance early return, the late-surrender check, the
ordered index-deviation chain keyed on the `handType-handValue` string
and the rounded true count, and the basic-strategy fallback. -/
def legacySelect (handType handValue : String) (dealer : Jv) (tc : Int)
    (rules : Rules) : String × String :=
  if jsEq dealer (Jv.num 11) = true ∧ rules.insurance = true ∧ 3 ≤ tc then
    ("Insurance", "TC = " ++ tcShow tc ++ " → Take insurance (TC ≥ +3)")
  else if rules.lateSurrender = true ∧ handType = "hard" ∧
      ((jsEq (jsParseInt handValue) (Jv.num 16) = true ∧
          includesNum [9, 10, 11] dealer = true) ∨
       (jsEq (jsParseInt handValue) (Jv.num 15) = true ∧
          jsEq dealer (Jv.num 10) = true)) then
    ("Surrender", "Late Surrender")
  else if handType ++ "-" ++ handValue = "hard-16" ∧
      jsEq dealer (Jv.num 10) = true ∧ 0 ≤ tc then
    ("Stand", "Index 0 → Stand (TC = " ++ tcShow tc ++ ")")
  else if handType ++ "-" ++ handValue = "hard-15" ∧
      jsEq dealer (Jv.num 10) = true ∧ 4 ≤ tc then
    ("Stand", "Index +4 → Stand (TC = " ++ tcShow tc ++ ")")
  else if handType ++ "-" ++ handValue = "hard-12" ∧
      jsEq dealer (Jv.num 3) = true ∧ 2 ≤ tc then
    ("Stand", "Index +2 → Stand (TC = " ++ tcShow tc ++ ")")
  else if handType ++ "-" ++ handValue = "hard-12" ∧
      jsEq dealer (Jv.num 2) = true ∧ 3 ≤ tc then
    ("Stand", "Index +3 → Stand (TC = " ++ tcShow tc ++ ")")
  else if handType ++ "-" ++ handValue = "hard-10" ∧
      (jsEq dealer (Jv.num 10) = true ∨ jsEq dealer (Jv.num 11) = true) ∧
      4 ≤ tc then
    ("Double", "Index +4 → Double (TC = " ++ tcShow tc ++ ")")
  else if handType ++ "-" ++ handValue = "hard-11" ∧
      jsEq dealer (Jv.num 11) = true ∧ 1 ≤ tc then
    ("Double", "Index +1 → Double (TC = " ++ tcShow tc ++ ")")
  else if handType ++ "-" ++ handValue = "hard-9" ∧
      jsEq dealer (Jv.num 2) = true ∧ 1 ≤ tc then
    ("Double", "Index +1 → Double (TC = " ++ tcShow tc ++ ")")
  else if handType ++ "-" ++ handValue = "hard-9" ∧
      jsEq dealer (Jv.num 7) = true ∧ 3 ≤ tc then
    ("Double", "Index +3 → Double (TC = " ++ tcShow tc ++ ")")
  else if handType ++ "-" ++ handValue = "soft-8" ∧
      jsEq dealer (Jv.num 6) = true ∧ 3 ≤ tc then
    ("Double", "Index +3 → Double (TC = " ++ tcShow tc ++ ")")
  else if handType ++ "-" ++ handValue = "pairs-9" ∧
      jsEq dealer (Jv.num 7) = true ∧ 3 ≤ tc then
    ("Split", "Index +3 → Split (TC = " ++ tcShow tc ++ ")")
  else
    (getBasicStrategyActionLegacy handType handValue dealer rules,
     "Basic Strategy")

/-- The action/note selection of `getRecommendationLegacy`
(lines 339-402): convert the dealer card
(`dealerCard === 'A' ? 11 : parseInt(dealerCard)`), then run the
selection chain.  (The function then wraps the selected action in a
recommendation object whose `ev` field calls `calculateEV`, an
identifier the module never defines, so actually invoking the function
would throw before delivering the object; the selection logic embedded
here is what the cited lines compute.) -/
def legacyActionNote (handType handValue dealerCard : String) (tc : Int)
    (rules : Rules) : String × String :=
  legacySelect handType handValue
    (if dealerCard = "A" then Jv.num 11 else jsParseInt dealerCard) tc rules

/-- JS `Math.round`: the nearest integer, with an exact half rounded
toward positive infinity — Math.round(0.5) is 1 but Math.round(-0.5)
is -0. -/
def mathRound (q : ℚ) : ℤ :=
  ⌊q + 1 / 2⌋

/-- `Math.round` lifted to the embedded JS values. -/
def jsMathRound : Jv → Jv
  | Jv.num q => Jv.num ((mathRound q : ℤ) : ℚ)
  | _ => Jv.nan

/-- `getRemainingDecks`: total remaining cards divided by 52. -/
def getRemainingDecks (m : List (String × Jv)) : Jv :=
  jsDiv (getTotalCardsRemaining m) (Jv.num 52)

/-- `getTrueCount`: running count divided by remaining decks when the
latter is positive, else 0. -/
def getTrueCount (s : TrainerState) : Jv :=
  if jsGt (getRemainingDecks s.cards) (Jv.num 0) = true then
    jsDiv (Jv.num (s.rc : ℚ)) (getRemainingDecks s.cards)
  else Jv.num 0

/-- `getTrueCountRounded`: `Math.round(getTrueCount())`. -/
def getTrueCountRounded (s : TrainerState) : Jv :=
  jsMathRound (getTrueCount s)

/-- Modelled from the spec: the CountingSystems module's
`calculateTrueCount` is not under src/.  Spec section 4.3:
trueCount = decksRemaining > 0 ? runningCount / decksRemaining : 0;
the counting-system id does not enter the formula for a balanced
system. -/
def calculateTrueCount (runningCount decksRemaining : Jv)
    (countingSystem : String) : Jv :=
  if jsGt decksRemaining (Jv.num 0) = true then
    jsDiv runningCount decksRemaining
  else Jv.num 0

/-- The tie policy the claim asserts, for comparison: round half away
from zero. -/
def roundHalfAwayFromZero (q : ℚ) : ℤ :=
  if 0 ≤ q then ⌊q + 1 / 2⌋ else -⌊-q + 1 / 2⌋

/-- The derived per-render values of lines 446-452.  The RulesEngine
functions they call are imported from outside src/ and stay abstract
parameters here. -/
structure DerivedStats where
  tc : Jv
  tcRounded : Jv
  baseHouseEdge : ℚ
  countAdjustedEV : ℚ
  betUnits : ℚ

/-- Lines 446-452: decks remaining, unrounded true count, rounded true
count, base house edge, count-adjusted EV and bet units, wired exactly
as in the source — the EV and bet functions receive the unrounded `tc`
while `tcRounded` is computed separately. -/
def derivedStats (calculateBaseHouseEdge : Rules → ℚ)
    (calculateCountAdjustedEV : ℚ → Jv → Rules → ℚ)
    (recommendBetUnits : Jv → Rules → ℚ)
    (s : TrainerState) (rules : Rules) : DerivedStats :=
  let decksRemaining := getRemainingDecks s.cards
  let tc := calculateTrueCount (Jv.num (s.rc : ℚ)) decksRemaining
    rules.countingSystem
  let tcRounded := jsMathRound tc
  let baseHouseEdge := calculateBaseHouseEdge rules
  { tc := tc, tcRounded := tcRounded, baseHouseEdge := baseHouseEdge,
    countAdjustedEV := calculateCountAdjustedEV baseHouseEdge tc rules,
    betUnits := recommendBetUnits tc rules }

/-- The module-scope rules bindings of BlackjackTrainer.jsx: only
`DEFAULT_COMPREHENSIVE_RULES` is imported (line 31); the identifier
`DEFAULT_RULES` read by `quickStartStandard` is neither defined in the
file nor imported. -/
def moduleRuleBindings : List (String × Rules) :=
  [("DEFAULT_COMPREHENSIVE_RULES", DEFAULT_COMPREHENSIVE_RULES)]

/-- Identifier resolution against the module scope. -/
def lookupModuleRules (n : String) : Option Rules :=
  (moduleRuleBindings.find? (fun p => p.1 == n)).map Prod.snd

/-- `quickStartStandard`: `setRules(DEFAULT_RULES); resetShoe();`.
Evaluating the unbound identifier `DEFAULT_RULES` throws a
ReferenceError before `setRules` or `resetShoe` run, so the error
outcome carries no new state. -/
def quickStartStandard (rules : Rules) (s : TrainerState) :
    Except String (Rules × TrainerState) :=
  match lookupModuleRules "DEFAULT_RULES" with
  | some r => Except.ok (r, resetShoe rules.numDecks)
  | none => Except.error "ReferenceError: DEFAULT_RULES is not defined"

/-- The record returned by `getCardsRemainingByCategory`. -/
structure CardsByCategory where
  plusOne : Jv
  plusOnePercent : String
  neutral : Jv
  neutralPercent : String
  minusOne : Jv
  minusOnePercent : String
deriving DecidableEq, Repr

/-- Fixed-point rendering of a natural number of tenths. -/
def natToFixed1 (n : Nat) : String :=
  toString (n / 10) ++ "." ++ toString (n % 10)

/-- `toFixed(1)` on a rational (the live uses are the non-negative
percentages below). -/
def ratToFixed1 (q : ℚ) : String :=
  if q < 0 then "-" ++ natToFixed1 (Int.toNat (mathRound (-q * 10)))
  else natToFixed1 (Int.toNat (mathRound (q * 10)))

/-- `toFixed(1)` on an embedded JS value; NaN formats as "NaN". -/
def jvToFixed1 : Jv → String
  | Jv.num q => ratToFixed1 q
  | _ => "NaN"

/-- `getCardsRemainingByCategory`: bucket counts over the +1 ranks
(2-6), the neutral ranks (7-9) and the -1 ranks (10, A), each with a
percentage of the total that is the string '0.0' when no cards
remain. -/
def getCardsRemainingByCategory (m : List (String × Jv)) : CardsByCategory :=
  let plusOneCards := ["2", "3", "4", "5", "6"].foldl
    (fun sum card => jsAdd sum (jsOrZero (getKey m card))) (Jv.num 0)
  let neutralCards := ["7", "8", "9"].foldl
    (fun sum card => jsAdd sum (jsOrZero (getKey m card))) (Jv.num 0)
  let minusOneCards := jsAdd (jsOrZero (getKey m "10")) (jsOrZero (getKey m "A"))
  let totalCards := getTotalCardsRemaining m
  { plusOne := plusOneCards,
    plusOnePercent := if jsGt totalCards (Jv.num 0) = true then
      jvToFixed1 (jsMul (jsDiv plusOneCards totalCards) (Jv.num 100))
      else "0.0",
    neutral := neutralCards,
    neutralPercent := if jsGt totalCards (Jv.num 0) = true then
      jvToFixed1 (jsMul (jsDiv neutralCards totalCards) (Jv.num 100))
      else "0.0",
    minusOne := minusOneCards,
    minusOnePercent := if jsGt totalCards (Jv.num 0) = true then
      jvToFixed1 (jsMul (jsDiv minusOneCards totalCards) (Jv.num 100))
      else "0.0" }

/-- A shoe object whose keys are exactly the ten ranks, holding
arbitrary numeric values. -/
def rankMap (a b c d e f g h i j : ℚ) : List (String × Jv) :=
  [("2", Jv.num a), ("3", Jv.num b), ("4", Jv.num c), ("5", Jv.num d),
   ("6", Jv.num e), ("7", Jv.num f), ("8", Jv.num g), ("9", Jv.num h),
   ("10", Jv.num i), ("A", Jv.num j)]

theorem getLast?_append_singleton {α : Type} (l : List α) (a : α) :
    (l ++ [a]).getLast? = some a := by
  simp

theorem dropLast_append_singleton {α : Type} (l : List α) (a : α) :
    (l ++ [a]).dropLast = l := by
  simp

/-- Claim C1: for every rank with a positive remaining count (and in
fact for every state in which `applyCard` does not early-return),
`applyCard(rank)` followed by `undo()` restores the rank-to-remaining
mapping, the running count and the history to exactly their previous
values, because `undo` reinstates the verbatim snapshot pushed by
`applyCard`. -/
theorem claim_C1_apply_undo_roundtrip (tags : String → Option Int)
    (card : String) (s : TrainerState)
    (h : jsGt (getKey s.cards card) (Jv.num 0) = true) :
    undoStep (applyCard tags card s) = s := by
  obtain ⟨q, hq, hpos⟩ : ∃ q, getKey s.cards card = Jv.num q ∧ 0 < q := by
    cases hk : getKey s.cards card with
    | undef => rw [hk] at h; exact absurd h (by simp [jsGt])
    | nan => rw [hk] at h; exact absurd h (by simp [jsGt])
    | num q =>
        refine ⟨q, rfl, ?_⟩
        rw [hk] at h
        simpa [jsGt] using h
  have hguard : jsLe (getKey s.cards card) (Jv.num 0) = false := by
    rw [hq]
    simp [jsLe]
    linarith
  rw [applyCard, hguard]
  simp only [Bool.false_eq_true, if_false, undoStep,
    getLast?_append_singleton, dropLast_append_singleton,
    HistEntry.rcOf, HistEntry.remainingOf]

/-- Witness for C1: dealing a '5' from a fresh six-deck shoe and
undoing it restores the fresh state. -/
theorem claim_C1_apply_undo_roundtrip_witness :
    jsGt (getKey (resetShoe 6).cards "5") (Jv.num 0) = true ∧
      undoStep (applyCard hiLoTags "5" (resetShoe 6)) = resetShoe 6 :=
  ⟨by decide, claim_C1_apply_undo_roundtrip hiLoTags "5" (resetShoe 6) (by decide)⟩

theorem mem_ranks_elim {r : String} (hr : r ∈ ranks)
    {P : String → Prop}
    (h2 : P "2") (h3 : P "3") (h4 : P "4") (h5 : P "5") (h6 : P "6")
    (h7 : P "7") (h8 : P "8") (h9 : P "9") (h10 : P "10") (hA : P "A") :
    P r := by
  simp only [ranks, List.mem_cons, List.mem_singleton, List.not_mem_nil, or_false] at hr
  rcases hr with rfl | rfl | rfl | rfl | rfl | rfl | rfl | rfl | rfl | rfl <;>
    assumption

theorem getKey_toMap (v : ShoeVec) {r : String} (hr : r ∈ ranks) :
    getKey v.toMap r = Jv.num ((v.get r : ℤ) : ℚ) := by
  revert hr
  simp only [ranks, List.mem_cons, List.mem_singleton, List.not_mem_nil, or_false]
  rintro (rfl | rfl | rfl | rfl | rfl | rfl | rfl | rfl | rfl | rfl) <;> rfl

theorem setKey_toMap (v : ShoeVec) {r : String} (hr : r ∈ ranks) (x : ℤ) :
    setKey v.toMap r (Jv.num ((x : ℤ) : ℚ)) = (v.set r x).toMap := by
  revert hr
  simp only [ranks, List.mem_cons, List.mem_singleton, List.not_mem_nil, or_false]
  rintro (rfl | rfl | rfl | rfl | rfl | rfl | rfl | rfl | rfl | rfl) <;> rfl

theorem bounded_get {numDecks : Nat} {v : ShoeVec} (hb : v.bounded numDecks)
    {r : String} (hr : r ∈ ranks) :
    0 ≤ v.get r ∧ v.get r ≤ cap numDecks r := by
  obtain ⟨b2, b3, b4, b5, b6, b7, b8, b9, b10, bA⟩ := hb
  revert hr
  simp only [ranks, List.mem_cons, List.mem_singleton, List.not_mem_nil, or_false]
  rintro (rfl | rfl | rfl | rfl | rfl | rfl | rfl | rfl | rfl | rfl) <;>
    simpa [ShoeVec.get] using by assumption

theorem bounded_set {numDecks : Nat} {v : ShoeVec} (hb : v.bounded numDecks)
    {r : String} (hr : r ∈ ranks) {x : ℤ}
    (hx0 : 0 ≤ x) (hxc : x ≤ cap numDecks r) :
    (v.set r x).bounded numDecks := by
  obtain ⟨b2, b3, b4, b5, b6, b7, b8, b9, b10, bA⟩ := hb
  revert hr
  simp only [ranks, List.mem_cons, List.mem_singleton, List.not_mem_nil, or_false]
  rintro (rfl | rfl | rfl | rfl | rfl | rfl | rfl | rfl | rfl | rfl) <;>
    simp [ShoeVec.set, ShoeVec.bounded] <;> tauto

theorem total_toMap (v : ShoeVec) :
    getTotalCardsRemaining v.toMap = Jv.num ((v.total : ℤ) : ℚ) := by
  simp only [getTotalCardsRemaining, ShoeVec.toMap, List.map_cons, List.map_nil,
    List.foldl_cons, List.foldl_nil, jsAdd, ShoeVec.total]
  congr 1
  push_cast
  ring

theorem findPositive_sound {m : List (String × Jv)} {c : String} :
    ∀ l : List String, findPositive m l = some c →
      c ∈ l ∧ jsGt (getKey m c) (Jv.num 0) = true := by
  intro l
  induction l with
  | nil => intro h; simp [findPositive] at h
  | cons a t ih =>
      intro h
      rw [findPositive] at h
      by_cases hp : jsGt (getKey m a) (Jv.num 0) = true
      · rw [if_pos hp] at h
        injection h with h2
        subst h2
        exact ⟨List.mem_cons_self a t, hp⟩
      · rw [if_neg hp] at h
        obtain ⟨hmem, hgt⟩ := ih h
        exact ⟨List.mem_cons_of_mem a hmem, hgt⟩

theorem quickPick_sound {value : Int} {m : List (String × Jv)} {c : String}
    (h : quickPick value m = some c) :
    c ∈ ranks ∧ jsGt (getKey m c) (Jv.num 0) = true := by
  rw [quickPick] at h
  by_cases h1 : value = 1
  · rw [if_pos h1] at h
    obtain ⟨hmem, hgt⟩ := findPositive_sound _ h
    refine ⟨?_, hgt⟩
    fin_cases hmem <;> decide
  · rw [if_neg h1] at h
    by_cases h2 : value = 0
    · rw [if_pos h2] at h
      obtain ⟨hmem, hgt⟩ := findPositive_sound _ h
      refine ⟨?_, hgt⟩
      fin_cases hmem <;> decide
    · rw [if_neg h2] at h
      by_cases h3 : value = -1
      · rw [if_pos h3] at h
        by_cases h4 : jsGt (getKey m "10") (Jv.num 0) = true
        · rw [if_pos h4] at h
          injection h with hc
          subst hc
          exact ⟨by decide, h4⟩
        · rw [if_neg h4] at h
          by_cases h5 : jsGt (getKey m "A") (Jv.num 0) = true
          · rw [if_pos h5] at h
            injection h with hc
            subst hc
            exact ⟨by decide, h5⟩
          · rw [if_neg h5] at h
            cases h
      · rw [if_neg h3] at h
        cases h

theorem mem_of_getLast? {α : Type} {l : List α} {a : α}
    (h : l.getLast? = some a) : a ∈ l := by
  induction l with
  | nil => simp at h
  | cons x t ih =>
      cases t with
      | nil =>
          simp [List.getLast?] at h
          simp [h]
      | cons y u =>
          rw [List.getLast?_cons_cons] at h
          exact List.mem_cons_of_mem x (ih h)

theorem inv_applyCard {numDecks : Nat} {tags : String → Option Int} {r : String}
    {s : TrainerState} (hr : r ∈ ranks) (hs : InvState numDecks s) :
    InvState numDecks (applyCard tags r s) := by
  obtain ⟨⟨v, hm, hb⟩, hh⟩ := hs
  have hget : getKey s.cards r = Jv.num ((v.get r : ℤ) : ℚ) := by
    rw [hm]; exact getKey_toMap v hr
  by_cases hle : v.get r ≤ 0
  · have hguard : jsLe (getKey s.cards r) (Jv.num 0) = true := by
      rw [hget]
      simp only [jsLe, decide_eq_true_eq]
      exact_mod_cast hle
    rw [applyCard, if_pos hguard]
    exact ⟨⟨v, hm, hb⟩, hh⟩
  · push_neg at hle
    have hguard : ¬ jsLe (getKey s.cards r) (Jv.num 0) = true := by
      rw [hget]
      simp only [jsLe, decide_eq_true_eq, not_le]
      exact_mod_cast hle
    rw [applyCard, if_neg hguard]
    constructor
    · refine ⟨v.set r (v.get r - 1), ?_, ?_⟩
      · show setKey s.cards r (jsSub (getKey s.cards r) (Jv.num 1)) = _
        rw [hget]
        have hsub : jsSub (Jv.num ((v.get r : ℤ) : ℚ)) (Jv.num 1) =
            Jv.num (((v.get r - 1 : ℤ) : ℤ) : ℚ) := by
          simp only [jsSub, Jv.num.injEq]
          push_cast
          ring
        rw [hsub, hm, setKey_toMap v hr]
      · exact bounded_set hb hr (by omega) (by
          have := (bounded_get hb hr).2
          omega)
    · intro e he
      simp only [List.mem_append, List.mem_singleton] at he
      rcases he with he | rfl
      · exact hh e he
      · exact ⟨v, hm, hb⟩

theorem inv_removeCard {numDecks : Nat} {tags : String → Option Int} {r : String}
    {s : TrainerState} (hr : r ∈ ranks) (hs : InvState numDecks s) :
    InvState numDecks (removeCard numDecks tags r s) := by
  obtain ⟨⟨v, hm, hb⟩, hh⟩ := hs
  have hget : getKey s.cards r = Jv.num ((v.get r : ℤ) : ℚ) := by
    rw [hm]; exact getKey_toMap v hr
  have hmax : (if r = "10" then ((numDecks * 16 : ℕ) : ℚ)
      else ((numDecks * 4 : ℕ) : ℚ)) = ((cap numDecks r : ℤ) : ℚ) := by
    by_cases h10 : r = "10" <;> simp [cap, h10]
  by_cases hge : cap numDecks r ≤ v.get r
  · have hguard : jsGe (getKey s.cards r)
        (Jv.num (if r = "10" then ((numDecks * 16 : ℕ) : ℚ)
          else ((numDecks * 4 : ℕ) : ℚ))) = true := by
      rw [hget, hmax]
      simp only [jsGe, decide_eq_true_eq]
      exact_mod_cast hge
    rw [removeCard, if_pos hguard]
    exact ⟨⟨v, hm, hb⟩, hh⟩
  · push_neg at hge
    have hguard : ¬ jsGe (getKey s.cards r)
        (Jv.num (if r = "10" then ((numDecks * 16 : ℕ) : ℚ)
          else ((numDecks * 4 : ℕ) : ℚ))) = true := by
      rw [hget, hmax]
      simp only [jsGe, decide_eq_true_eq, not_le]
      exact_mod_cast hge
    rw [removeCard, if_neg hguard]
    constructor
    · refine ⟨v.set r (v.get r + 1), ?_, ?_⟩
      · show setKey s.cards r (jsAdd (getKey s.cards r) (Jv.num 1)) = _
        rw [hget]
        have hadd : jsAdd (Jv.num ((v.get r : ℤ) : ℚ)) (Jv.num 1) =
            Jv.num (((v.get r + 1 : ℤ) : ℤ) : ℚ) := by
          simp only [jsAdd, Jv.num.injEq]
          push_cast
          ring
        rw [hadd, hm, setKey_toMap v hr]
      · exact bounded_set hb hr (by
          have := (bounded_get hb hr).1
          omega) (by omega)
    · exact hh

theorem inv_quickCount {numDecks : Nat} {value : Int} {s : TrainerState}
    (hs : InvState numDecks s) :
    InvState numDecks (applyQuickCount value s) := by
  obtain ⟨⟨v, hm, hb⟩, hh⟩ := hs
  by_cases hg : jsLe (getTotalCardsRemaining s.cards) (Jv.num 0) = true
  · rw [applyQuickCount, if_pos hg]
    exact ⟨⟨v, hm, hb⟩, hh⟩
  · rw [applyQuickCount, if_neg hg]
    cases hpick : quickPick value s.cards with
    | none => exact ⟨⟨v, hm, hb⟩, hh⟩
    | some c =>
        obtain ⟨hcr, hgt⟩ := quickPick_sound hpick
        have hget : getKey s.cards c = Jv.num ((v.get c : ℤ) : ℚ) := by
          rw [hm]; exact getKey_toMap v hcr
        have hpos : 0 < v.get c := by
          rw [hget] at hgt
          simp only [jsGt, decide_eq_true_eq] at hgt
          exact_mod_cast hgt
        constructor
        · refine ⟨v.set c (v.get c - 1), ?_, ?_⟩
          · show setKey s.cards c (jsSub (getKey s.cards c) (Jv.num 1)) = _
            rw [hget]
            have hsub : jsSub (Jv.num ((v.get c : ℤ) : ℚ)) (Jv.num 1) =
                Jv.num (((v.get c - 1 : ℤ) : ℤ) : ℚ) := by
              simp only [jsSub, Jv.num.injEq]
              push_cast
              ring
            rw [hsub, hm, setKey_toMap v hcr]
          · exact bounded_set hb hcr (by omega) (by
              have := (bounded_get hb hcr).2
              omega)
        · intro e he
          simp only [List.mem_append, List.mem_singleton] at he
          rcases he with he | rfl
          · exact hh e he
          · exact ⟨v, hm, hb⟩

theorem inv_undoStep {numDecks : Nat} {s : TrainerState}
    (hs : InvState numDecks s) :
    InvState numDecks (undoStep s) := by
  obtain ⟨hcur, hh⟩ := hs
  cases hlast : s.history.getLast? with
  | none => rw [undoStep, hlast]; exact ⟨hcur, hh⟩
  | some e =>
      rw [undoStep, hlast]
      refine ⟨hh e (mem_of_getLast? hlast), ?_⟩
      intro f hf
      exact hh f (List.dropLast_subset _ hf)

theorem freshCards_toMap (numDecks : Nat) :
    freshCards numDecks = (freshVec numDecks).toMap := by
  simp only [freshCards, freshVec, ShoeVec.toMap, List.cons.injEq, Prod.mk.injEq,
    Jv.num.injEq, and_true, true_and]
  norm_num

theorem freshVec_bounded (numDecks : Nat) :
    (freshVec numDecks).bounded numDecks := by
  simp only [freshVec, ShoeVec.bounded, cap]
  norm_num
  omega

theorem inv_reset (numDecks : Nat) : InvState numDecks (resetShoe numDecks) := by
  refine ⟨⟨freshVec numDecks, ?_, freshVec_bounded numDecks⟩, ?_⟩
  · show freshCards numDecks = _
    exact freshCards_toMap numDecks
  · intro e he
    simp [resetShoe] at he

theorem inv_stepOp {numDecks : Nat} {tags : String → Option Int}
    {s : TrainerState} {o : Op} (ho : validOp o = true)
    (hs : InvState numDecks s) :
    InvState numDecks (stepOp numDecks tags s o) := by
  cases o with
  | apply r =>
      have hr : r ∈ ranks := by
        simpa [validOp, List.contains_iff_exists_mem_beq, beq_iff_eq] using ho
      exact inv_applyCard hr hs
  | remove r =>
      have hr : r ∈ ranks := by
        simpa [validOp, List.contains_iff_exists_mem_beq, beq_iff_eq] using ho
      exact inv_removeCard hr hs
  | quick v => exact inv_quickCount hs
  | undo => exact inv_undoStep hs
  | reset => exact inv_reset numDecks

theorem inv_runOps {numDecks : Nat} {tags : String → Option Int}
    {ops : List Op} (h : validOps ops = true) :
    InvState numDecks (runOps numDecks tags ops) := by
  rw [validOps, List.all_eq_true] at h
  rw [runOps]
  have hgen : ∀ (l : List Op) (s : TrainerState), (∀ o ∈ l, validOp o = true) →
      InvState numDecks s → InvState numDecks (l.foldl (stepOp numDecks tags) s) := by
    intro l
    induction l with
    | nil => intro s _ hs; exact hs
    | cons o t ih =>
        intro s hl hs
        rw [List.foldl_cons]
        exact ih _ (fun x hx => hl x (List.mem_cons_of_mem o hx))
          (inv_stepOp (hl o (List.mem_cons_self o t)) hs)
  exact hgen ops (resetShoe numDecks) h (inv_reset numDecks)

/-- Claim C2: starting from a fresh shoe with `numDecks` decks, after
any sequence of apply/remove/quickApply/undo/reset operations that uses
only the ten rank keys and the three quick buckets, every rank's
remaining count is an integer between 0 and its capacity
(numDecks*16 for '10', numDecks*4 otherwise).  Each prefix of a valid
sequence is itself a valid sequence, so this bounds the state after
every intermediate operation as well. -/
theorem claim_C2_shoe_bounds_invariant (numDecks : Nat)
    (tags : String → Option Int) (ops : List Op)
    (h : validOps ops = true) :
    ∀ r ∈ ranks, ∃ n : ℤ,
      getKey (runOps numDecks tags ops).cards r = Jv.num ((n : ℤ) : ℚ) ∧
      0 ≤ n ∧ n ≤ cap numDecks r := by
  obtain ⟨⟨v, hm, hb⟩, _⟩ := @inv_runOps numDecks tags ops h
  intro r hr
  refine ⟨v.get r, ?_, (bounded_get hb hr).1, (bounded_get hb hr).2⟩
  rw [hm]
  exact getKey_toMap v hr

/-- Witness for C2: a concrete valid six-operation sequence on a
one-deck shoe keeps the ten-rank bound for rank '10'. -/
theorem claim_C2_shoe_bounds_invariant_witness :
    validOps [Op.apply "5", Op.quick 1, Op.undo, Op.remove "A",
      Op.reset, Op.apply "10"] = true ∧
    ∃ n : ℤ,
      getKey (runOps 1 hiLoTags [Op.apply "5", Op.quick 1, Op.undo,
        Op.remove "A", Op.reset, Op.apply "10"]).cards "10" = Jv.num ((n : ℤ) : ℚ) ∧
      0 ≤ n ∧ n ≤ cap 1 "10" :=
  ⟨by decide,
   claim_C2_shoe_bounds_invariant 1 hiLoTags
     [Op.apply "5", Op.quick 1, Op.undo, Op.remove "A", Op.reset, Op.apply "10"]
     (by decide) "10" (by decide)⟩

theorem findPositive_eq_find {m : List (String × Jv)} :
    ∀ l : List String,
      findPositive m l = l.find? (fun c => jsGt (getKey m c) (Jv.num 0)) := by
  intro l
  induction l with
  | nil => rfl
  | cons a t ih =>
      rw [findPositive]
      by_cases hp : jsGt (getKey m a) (Jv.num 0) = true
      · rw [if_pos hp]
        simp [List.find?, hp]
      · have hp2 : jsGt (getKey m a) (Jv.num 0) = false := by simpa using hp
        rw [if_neg hp, ih]
        simp [List.find?, hp2]

theorem quickPick_eq_find (value : Int) (m : List (String × Jv)) :
    quickPick value m =
      (bucketRanks value).find? (fun c => jsGt (getKey m c) (Jv.num 0)) := by
  rw [quickPick, bucketRanks]
  by_cases h1 : value = 1
  · rw [if_pos h1, if_pos h1, findPositive_eq_find]
  · rw [if_neg h1, if_neg h1]
    by_cases h2 : value = 0
    · rw [if_pos h2, if_pos h2, findPositive_eq_find]
    · rw [if_neg h2, if_neg h2]
      by_cases h3 : value = -1
      · rw [if_pos h3, if_pos h3]
        by_cases h4 : jsGt (getKey m "10") (Jv.num 0) = true
        · rw [if_pos h4]
          simp [List.find?, h4]
        · have h42 : jsGt (getKey m "10") (Jv.num 0) = false := by simpa using h4
          rw [if_neg h4]
          by_cases h5 : jsGt (getKey m "A") (Jv.num 0) = true
          · rw [if_pos h5]
            simp [List.find?, h42, h5]
          · have h52 : jsGt (getKey m "A") (Jv.num 0) = false := by simpa using h5
            rw [if_neg h5]
            simp [List.find?, h42, h52]
      · rw [if_neg h3, if_neg h3]
        rfl

theorem bucketRanks_subset_ranks {value : Int} {c : String}
    (h : c ∈ bucketRanks value) : c ∈ ranks := by
  rw [bucketRanks] at h
  split_ifs at h <;> (fin_cases h <;> decide)

theorem total_pos_of_get {v : ShoeVec} (hn : v.nonneg) {c : String}
    (hc : c ∈ ranks) (hpos : 0 < v.get c) : 0 < v.total := by
  obtain ⟨n2, n3, n4, n5, n6, n7, n8, n9, n10, nA⟩ := hn
  revert hc
  simp only [ranks, List.mem_cons, List.mem_singleton, List.not_mem_nil, or_false]
  rintro (rfl | rfl | rfl | rfl | rfl | rfl | rfl | rfl | rfl | rfl) <;>
    simp only [ShoeVec.get, ShoeVec.total] at hpos ⊢ <;>
    simp at hpos <;> omega

/-- Claim C3: on a well-formed shoe, `applyQuickCount` picks exactly
the first rank of the bucket's fixed priority order that still has a
positive remaining count; when such a rank exists its count is
decremented by one, the running count changes by the Hi-Lo tag weight
of the picked rank (which equals the bucket value), and one quick
history entry is pushed; when the whole bucket is exhausted the state
is left unchanged, even if other ranks still have cards. -/
theorem claim_C3_quick_apply_first_rank (w : ShoeVec) (rc : ℤ)
    (hist : List HistEntry) (value : Int)
    (hv : value = 1 ∨ value = 0 ∨ value = -1) (hw : w.nonneg) :
    match (bucketRanks value).find?
        (fun c => jsGt (getKey w.toMap c) (Jv.num 0)) with
    | some c =>
        ∃ n : ℤ, getKey w.toMap c = Jv.num ((n : ℤ) : ℚ) ∧ 0 < n ∧
          hiLoTags c = some value ∧
          applyQuickCount value ⟨w.toMap, rc, hist⟩ =
            ⟨setKey w.toMap c (Jv.num (((n - 1 : ℤ) : ℤ) : ℚ)), rc + value,
             hist ++ [HistEntry.quick value c rc w.toMap]⟩
    | none => applyQuickCount value ⟨w.toMap, rc, hist⟩ = ⟨w.toMap, rc, hist⟩ := by
  cases hf : (bucketRanks value).find?
      (fun c => jsGt (getKey w.toMap c) (Jv.num 0)) with
  | none =>
      show applyQuickCount value ⟨w.toMap, rc, hist⟩ = ⟨w.toMap, rc, hist⟩
      rw [applyQuickCount]
      by_cases hg : jsLe (getTotalCardsRemaining
          (TrainerState.mk w.toMap rc hist).cards) (Jv.num 0) = true
      · rw [if_pos hg]
      · rw [if_neg hg]
        show (match quickPick value w.toMap with
          | none => (⟨w.toMap, rc, hist⟩ : TrainerState)
          | some c => _) = _
        rw [quickPick_eq_find, hf]
  | some c =>
      have hpred0 := List.find?_some hf
      have hpred : jsGt (getKey w.toMap c) (Jv.num 0) = true := hpred0
      have hmemB : c ∈ bucketRanks value := List.mem_of_find?_eq_some hf
      have hcr : c ∈ ranks := bucketRanks_subset_ranks hmemB
      have hget : getKey w.toMap c = Jv.num ((w.get c : ℤ) : ℚ) :=
        getKey_toMap w hcr
      have hpos : 0 < w.get c := by
        rw [hget] at hpred
        simp only [jsGt, decide_eq_true_eq] at hpred
        exact_mod_cast hpred
      have htag : hiLoTags c = some value := by
        rcases hv with rfl | rfl | rfl
        · rw [show bucketRanks 1 = ["2", "3", "4", "5", "6"] from rfl] at hmemB
          fin_cases hmemB <;> decide
        · rw [show bucketRanks 0 = ["7", "8", "9"] from rfl] at hmemB
          fin_cases hmemB <;> decide
        · rw [show bucketRanks (-1) = ["10", "A"] from rfl] at hmemB
          fin_cases hmemB <;> decide
      show ∃ n : ℤ, _
      refine ⟨w.get c, hget, hpos, htag, ?_⟩
      rw [applyQuickCount]
      have htot : 0 < w.total := total_pos_of_get hw hcr hpos
      have hg : ¬ jsLe (getTotalCardsRemaining
          (TrainerState.mk w.toMap rc hist).cards) (Jv.num 0) = true := by
        show ¬ jsLe (getTotalCardsRemaining w.toMap) (Jv.num 0) = true
        rw [total_toMap]
        simp only [jsLe, decide_eq_true_eq, not_le]
        exact_mod_cast htot
      rw [if_neg hg]
      show (match quickPick value w.toMap with
        | none => (⟨w.toMap, rc, hist⟩ : TrainerState)
        | some c =>
            ⟨setKey w.toMap c (jsSub (getKey w.toMap c) (Jv.num 1)),
             rc + value, hist ++ [HistEntry.quick value c rc w.toMap]⟩) = _
      rw [quickPick_eq_find, hf]
      have hsub : jsSub (getKey w.toMap c) (Jv.num 1) =
          Jv.num (((w.get c - 1 : ℤ) : ℤ) : ℚ) := by
        rw [hget]
        simp only [jsSub, Jv.num.injEq]
        push_cast
        ring
      show TrainerState.mk (setKey w.toMap c (jsSub (getKey w.toMap c) (Jv.num 1)))
        (rc + value) (hist ++ [HistEntry.quick value c rc w.toMap]) = _
      rw [hsub]

/-- Witness for C3: with the neutral bucket (7,8,9) exhausted but 56
other cards left, `applyQuickCount 0` is a no-op. -/
theorem claim_C3_quick_apply_first_rank_witness :
    applyQuickCount 0 ⟨(ShoeVec.mk 8 8 8 8 8 0 0 0 32 8).toMap, 3, []⟩ =
      ⟨(ShoeVec.mk 8 8 8 8 8 0 0 0 32 8).toMap, 3, []⟩ :=
  claim_C3_quick_apply_first_rank (ShoeVec.mk 8 8 8 8 8 0 0 0 32 8) 3 [] 0
    (Or.inr (Or.inl rfl))
    (by unfold ShoeVec.nonneg; decide)

theorem basicStrategyEntry_das (handType handValue : String) (dealer : Jv)
    (rules : Rules) :
    basicStrategyEntry? handType handValue dealer rules =
      basicStrategyEntry? handType handValue dealer (mkRulesDas rules.das) := rfl

theorem getBasicStrategyActionLegacy_das (handType handValue : String)
    (dealer : Jv) (rules : Rules) :
    getBasicStrategyActionLegacy handType handValue dealer rules =
      getBasicStrategyActionLegacy handType handValue dealer (mkRulesDas rules.das) := rfl

theorem basicStrategy_check (das : Bool) :
    (reachableHands.all (fun q => ranks.all (fun d =>
      match basicStrategyEntry? q.1 q.2 (dealerOf d) (mkRulesDas das) with
      | some a => getBasicStrategyActionLegacy q.1 q.2 (dealerOf d) (mkRulesDas das) == a
      | none => false))) = true := by
  cases das <;> decide

/-- Claim C4: for every reachable (handType, handValue, dealerUpcard)
combination and every rule configuration, the basic-strategy fallback
resolves through an explicit table entry — the instrumented lookup
returns `some` action and the source function returns that same action —
so the trailing default-to-Hit catch-all is never what answers a
reachable lookup. -/
theorem claim_C4_basic_strategy_total :
    ∀ p ∈ reachableHands, ∀ dc ∈ ranks, ∀ rules : Rules,
      ∃ a, basicStrategyEntry? p.1 p.2 (dealerOf dc) rules = some a ∧
        getBasicStrategyActionLegacy p.1 p.2 (dealerOf dc) rules = a := by
  intro p hp dc hdc rules
  rw [basicStrategyEntry_das p.1 p.2 (dealerOf dc) rules,
    getBasicStrategyActionLegacy_das p.1 p.2 (dealerOf dc) rules]
  have h1 := basicStrategy_check rules.das
  rw [List.all_eq_true] at h1
  have h2 := h1 p hp
  rw [List.all_eq_true] at h2
  have h3 := h2 dc hdc
  revert h3
  cases hE : basicStrategyEntry? p.1 p.2 (dealerOf dc) (mkRulesDas rules.das) with
  | none =>
      intro h3
      simp at h3
  | some a =>
      intro h3
      simp only [beq_iff_eq] at h3
      exact ⟨a, rfl, h3⟩

/-- Witness for C4: hard 16 against dealer 10 resolves through the
explicit hard-16 row. -/
theorem claim_C4_basic_strategy_total_witness :
    ∃ a, basicStrategyEntry? ("hard", "16").1 ("hard", "16").2 (dealerOf "10")
        DEFAULT_COMPREHENSIVE_RULES = some a ∧
      getBasicStrategyActionLegacy ("hard", "16").1 ("hard", "16").2
        (dealerOf "10") DEFAULT_COMPREHENSIVE_RULES = a :=
  claim_C4_basic_strategy_total ("hard", "16") (by decide) "10" (by decide)
    DEFAULT_COMPREHENSIVE_RULES

/-- Counterexample for C5 as stated: at dealer upcard A, insurance
enabled and rounded true count +3, the legacy recommendation's action
field IS the string 'Insurance' — the primary hand action is replaced,
not reported alongside a takeInsurance flag. -/
theorem claim_C5_cex_insurance_replaces_action :
    (legacyActionNote "hard" "16" "A" 3 DEFAULT_COMPREHENSIVE_RULES).1 =
      "Insurance" := rfl

/-- Claim C5 as amended: whenever the dealer upcard is A, insurance is
enabled in the rules and the rounded true count is at least +3, the
legacy recommendation path returns 'Insurance' as the action itself,
for every hand; the legacy output has no separate takeInsurance field,
so no primary hand action is produced alongside it. -/
theorem claim_C5_insurance_action_amended (handType handValue : String)
    (tc : Int) (rules : Rules) (hins : rules.insurance = true)
    (htc : 3 ≤ tc) :
    (legacyActionNote handType handValue "A" tc rules).1 = "Insurance" := by
  show (legacySelect handType handValue (Jv.num 11) tc rules).1 = "Insurance"
  rw [legacySelect, if_pos ⟨by decide, hins, htc⟩]

/-- Witness for C5 (amended): hard 12 versus dealer A at rounded true
count +5 under the default (insurance-enabled) rules. -/
theorem claim_C5_insurance_action_amended_witness :
    DEFAULT_COMPREHENSIVE_RULES.insurance = true ∧ (3 : Int) ≤ 5 ∧
      (legacyActionNote "hard" "12" "A" 5 DEFAULT_COMPREHENSIVE_RULES).1 =
        "Insurance" :=
  ⟨rfl, by decide,
   claim_C5_insurance_action_amended "hard" "12" 5 DEFAULT_COMPREHENSIVE_RULES
     rfl (by decide)⟩

/-- Claim C6: for hard 16 versus dealer upcard 10 with late surrender
off, the legacy recommendation action is Stand exactly when the rounded
true count is at least 0 (the hard-16-vs-10 index fires at threshold 0
and above), and Hit for every rounded true count below 0 (basic
strategy, since the deviation does not fire below threshold). -/
theorem claim_C6_hard16_vs10_index (tc : Int) (rules : Rules)
    (hs : rules.lateSurrender = false) :
    (legacyActionNote "hard" "16" "10" tc rules).1 =
      if 0 ≤ tc then "Stand" else "Hit" := by
  show (legacySelect "hard" "16" (Jv.num 10) tc rules).1 =
    if 0 ≤ tc then "Stand" else "Hit"
  rw [legacySelect]
  rw [if_neg (fun h => absurd h.1 (by decide))]
  rw [if_neg (fun h => by rw [hs] at h; exact absurd h.1 (by decide))]
  by_cases htc : 0 ≤ tc
  · rw [if_pos ⟨by decide, by decide, htc⟩, if_pos htc]
  · rw [if_neg (fun h => htc h.2.2)]
    rw [if_neg (fun h => absurd h.1 (by decide))]
    rw [if_neg (fun h => absurd h.1 (by decide))]
    rw [if_neg (fun h => absurd h.1 (by decide))]
    rw [if_neg (fun h => absurd h.1 (by decide))]
    rw [if_neg (fun h => absurd h.1 (by decide))]
    rw [if_neg (fun h => absurd h.1 (by decide))]
    rw [if_neg (fun h => absurd h.1 (by decide))]
    rw [if_neg (fun h => absurd h.1 (by decide))]
    rw [if_neg (fun h => absurd h.1 (by decide))]
    rw [if_neg htc]
    rfl

/-- Witness for C6: at rounded true count 0 under the default rules the
action is Stand. -/
theorem claim_C6_hard16_vs10_index_witness :
    DEFAULT_COMPREHENSIVE_RULES.lateSurrender = false ∧
      (legacyActionNote "hard" "16" "10" 0 DEFAULT_COMPREHENSIVE_RULES).1 =
        (if (0 : Int) ≤ 0 then "Stand" else "Hit") :=
  ⟨rfl, claim_C6_hard16_vs10_index 0 DEFAULT_COMPREHENSIVE_RULES rfl⟩

/-- Counterexample for C7 as stated: with 104 cards remaining and a
running count of -1 the true count is exactly -1/2; the code's rounded
true count is 0 (Math.round rounds an exact half toward positive
infinity), while the claimed away-from-zero tie policy would give -1. -/
theorem claim_C7_cex_round_half_toward_posinf :
    getTrueCount ⟨(freshVec 2).toMap, -1, []⟩ = Jv.num (-(1 / 2)) ∧
    getTrueCountRounded ⟨(freshVec 2).toMap, -1, []⟩ = Jv.num 0 ∧
    roundHalfAwayFromZero (-(1 / 2)) = -1 := by
  have htot : getTotalCardsRemaining (freshVec 2).toMap =
      Jv.num ((((freshVec 2).total : ℤ) : ℚ)) := total_toMap (freshVec 2)
  have htot104 : getTotalCardsRemaining (freshVec 2).toMap = Jv.num 104 := by
    rw [htot]
    norm_num [freshVec, ShoeVec.total]
  have hdecks : getRemainingDecks (freshVec 2).toMap = Jv.num 2 := by
    rw [getRemainingDecks, htot104]
    norm_num [jsDiv]
  have h1 : getTrueCount ⟨(freshVec 2).toMap, -1, []⟩ = Jv.num (-(1 / 2)) := by
    rw [getTrueCount]
    show (if jsGt (getRemainingDecks (freshVec 2).toMap) (Jv.num 0) = true
      then jsDiv (Jv.num ((-1 : ℤ) : ℚ)) (getRemainingDecks (freshVec 2).toMap)
      else Jv.num 0) = _
    rw [hdecks]
    norm_num [jsGt, jsDiv]
  refine ⟨h1, ?_, ?_⟩
  · rw [getTrueCountRounded, h1]
    norm_num [jsMathRound, mathRound]
  · rw [roundHalfAwayFromZero]
    norm_num

/-- Claim C7 as amended: on any well-formed non-empty shoe the true
count is a rational q; the rounded true count used by the decision
lookups is `Math.round(q)`, which is a nearest integer to q with an
exact half-way tie resolved toward positive infinity (so +0.5 rounds
to +1 but -0.5 rounds to 0, not -1); and the count-adjusted-EV and
bet-sizing calls receive the unrounded q while the rounded value is
computed separately. -/
theorem claim_C7_round_amended (w : ShoeVec) (rc : ℤ)
    (hist : List HistEntry) (hpos : 0 < w.total) :
    ∃ q : ℚ,
      getTrueCount ⟨w.toMap, rc, hist⟩ = Jv.num q ∧
      getTrueCountRounded ⟨w.toMap, rc, hist⟩ =
        Jv.num ((mathRound q : ℤ) : ℚ) ∧
      |q - ((mathRound q : ℤ) : ℚ)| ≤ 1 / 2 ∧
      (∀ n : ℤ, q = (n : ℚ) + 1 / 2 → mathRound q = n + 1) ∧
      (∀ (fB : Rules → ℚ) (fE : ℚ → Jv → Rules → ℚ)
          (fBet : Jv → Rules → ℚ) (rules : Rules),
        (derivedStats fB fE fBet ⟨w.toMap, rc, hist⟩ rules).countAdjustedEV =
          fE (fB rules) (Jv.num q) rules ∧
        (derivedStats fB fE fBet ⟨w.toMap, rc, hist⟩ rules).betUnits =
          fBet (Jv.num q) rules ∧
        (derivedStats fB fE fBet ⟨w.toMap, rc, hist⟩ rules).tcRounded =
          Jv.num ((mathRound q : ℤ) : ℚ)) := by
  have htotQ : (0 : ℚ) < ((w.total : ℤ) : ℚ) := by exact_mod_cast hpos
  have hdecks : getRemainingDecks w.toMap =
      Jv.num (((w.total : ℤ) : ℚ) / 52) := by
    rw [getRemainingDecks, total_toMap w]
    norm_num [jsDiv]
  have hdpos : (0 : ℚ) < ((w.total : ℤ) : ℚ) / 52 := by positivity
  have hdne : ((w.total : ℤ) : ℚ) / 52 ≠ 0 := ne_of_gt hdpos
  refine ⟨(rc : ℚ) / (((w.total : ℤ) : ℚ) / 52), ?_, ?_, ?_, ?_, ?_⟩
  · rw [getTrueCount]
    show (if jsGt (getRemainingDecks w.toMap) (Jv.num 0) = true
      then jsDiv (Jv.num ((rc : ℤ) : ℚ)) (getRemainingDecks w.toMap)
      else Jv.num 0) = _
    rw [hdecks]
    simp only [jsGt, jsDiv, decide_eq_true_eq, if_pos hdpos, if_neg hdne]
  · rw [getTrueCountRounded, getTrueCount]
    show jsMathRound (if jsGt (getRemainingDecks w.toMap) (Jv.num 0) = true
      then jsDiv (Jv.num ((rc : ℤ) : ℚ)) (getRemainingDecks w.toMap)
      else Jv.num 0) = _
    rw [hdecks]
    simp only [jsGt, jsDiv, decide_eq_true_eq, if_pos hdpos, if_neg hdne,
      jsMathRound]
  · have hfl := Int.floor_le ((rc : ℚ) / (((w.total : ℤ) : ℚ) / 52) + 1 / 2)
    have hfu := Int.lt_floor_add_one
      ((rc : ℚ) / (((w.total : ℤ) : ℚ) / 52) + 1 / 2)
    rw [abs_le, mathRound]
    constructor <;> linarith
  · intro n hn
    rw [mathRound, hn, show (n : ℚ) + 1 / 2 + 1 / 2 = ((n + 1 : ℤ) : ℚ) by
      push_cast; ring]
    exact Int.floor_intCast (n + 1)
  · intro fB fE fBet rules
    have hq : calculateTrueCount (Jv.num ((rc : ℤ) : ℚ))
        (getRemainingDecks w.toMap) rules.countingSystem =
        Jv.num ((rc : ℚ) / (((w.total : ℤ) : ℚ) / 52)) := by
      rw [calculateTrueCount, hdecks]
      simp only [jsGt, jsDiv, decide_eq_true_eq, if_pos hdpos, if_neg hdne]
    refine ⟨?_, ?_, ?_⟩ <;>
      simp only [derivedStats, hq, jsMathRound]

/-- Witness for C7 (amended), at a fresh one-deck shoe with running
count 0: the true count is a rational with the stated rounding
behaviour. -/
theorem claim_C7_round_amended_witness :
    0 < (freshVec 1).total ∧
    ∃ q : ℚ,
      getTrueCount ⟨(freshVec 1).toMap, 0, []⟩ = Jv.num q ∧
      getTrueCountRounded ⟨(freshVec 1).toMap, 0, []⟩ =
        Jv.num ((mathRound q : ℤ) : ℚ) ∧
      |q - ((mathRound q : ℤ) : ℚ)| ≤ 1 / 2 ∧
      (∀ n : ℤ, q = (n : ℚ) + 1 / 2 → mathRound q = n + 1) ∧
      (∀ (fB : Rules → ℚ) (fE : ℚ → Jv → Rules → ℚ)
          (fBet : Jv → Rules → ℚ) (rules : Rules),
        (derivedStats fB fE fBet ⟨(freshVec 1).toMap, 0, []⟩ rules).countAdjustedEV =
          fE (fB rules) (Jv.num q) rules ∧
        (derivedStats fB fE fBet ⟨(freshVec 1).toMap, 0, []⟩ rules).betUnits =
          fBet (Jv.num q) rules ∧
        (derivedStats fB fE fBet ⟨(freshVec 1).toMap, 0, []⟩ rules).tcRounded =
          Jv.num ((mathRound q : ℤ) : ℚ)) :=
  ⟨by decide, claim_C7_round_amended (freshVec 1) 0 [] (by decide)⟩

/-- Claim C8 evaluated at the failing input: `applyCard` and
`removeCard` with the invalid rank 'J' on a fresh one-deck shoe
silently append a 'J' entry holding NaN to the shoe object
(`undefined <= 0` and `undefined >= max` are both false, so neither
guard fires), report nothing to the caller, and `applyCard`
additionally pushes a history entry; the running count is unchanged
because the missing tag weight defaults to 0. -/
theorem claim_C8_invalid_rank_silent_mutation :
    applyCard hiLoTags "J" (resetShoe 1) =
      ⟨freshCards 1 ++ [("J", Jv.nan)], 0,
       [HistEntry.deal "J" 0 0 (freshCards 1)]⟩ ∧
    removeCard 1 hiLoTags "J" (resetShoe 1) =
      ⟨freshCards 1 ++ [("J", Jv.nan)], 0, []⟩ :=
  ⟨rfl, rfl⟩

/-- Claim C9: every invocation of the quick-start handler fails with a
ReferenceError, because it evaluates the identifier `DEFAULT_RULES`,
which is neither defined in the file nor imported (only
`DEFAULT_COMPREHENSIVE_RULES` is); the error occurs before any rules
update or shoe reset takes place. -/
theorem claim_C9_quick_start_reference_error :
    ∀ (rules : Rules) (s : TrainerState),
      quickStartStandard rules s =
        Except.error "ReferenceError: DEFAULT_RULES is not defined" := by
  intro rules s
  rfl

/-- Claim C10: on a shoe object whose keys are exactly the ten ranks
(with numeric values), the three bucket counts of
`getCardsRemainingByCategory` sum to the total remaining, and when the
total is 0 each percentage field is the string '0.0'. -/
theorem claim_C10_bucket_totals (a b c d e f g h i j : ℚ) :
    jsAdd (jsAdd (getCardsRemainingByCategory (rankMap a b c d e f g h i j)).plusOne
        (getCardsRemainingByCategory (rankMap a b c d e f g h i j)).neutral)
      (getCardsRemainingByCategory (rankMap a b c d e f g h i j)).minusOne =
      getTotalCardsRemaining (rankMap a b c d e f g h i j) ∧
    (getTotalCardsRemaining (rankMap a b c d e f g h i j) = Jv.num 0 →
      (getCardsRemainingByCategory (rankMap a b c d e f g h i j)).plusOnePercent = "0.0" ∧
      (getCardsRemainingByCategory (rankMap a b c d e f g h i j)).neutralPercent = "0.0" ∧
      (getCardsRemainingByCategory (rankMap a b c d e f g h i j)).minusOnePercent = "0.0") := by
  have horz : ∀ q : ℚ, jsOrZero (Jv.num q) = Jv.num q := by
    intro q
    rw [jsOrZero]
    split_ifs with h
    · rw [h]
    · rfl
  have htot : getTotalCardsRemaining (rankMap a b c d e f g h i j) =
      Jv.num (0 + a + b + c + d + e + f + g + h + i + j) := rfl
  have hplus : (getCardsRemainingByCategory (rankMap a b c d e f g h i j)).plusOne =
      Jv.num (0 + a + b + c + d + e) := by
    show ["2", "3", "4", "5", "6"].foldl
      (fun sum card =>
        jsAdd sum (jsOrZero (getKey (rankMap a b c d e f g h i j) card)))
      (Jv.num 0) = _
    simp only [List.foldl_cons, List.foldl_nil]
    rw [show getKey (rankMap a b c d e f g h i j) "2" = Jv.num a from rfl,
      show getKey (rankMap a b c d e f g h i j) "3" = Jv.num b from rfl,
      show getKey (rankMap a b c d e f g h i j) "4" = Jv.num c from rfl,
      show getKey (rankMap a b c d e f g h i j) "5" = Jv.num d from rfl,
      show getKey (rankMap a b c d e f g h i j) "6" = Jv.num e from rfl]
    simp only [horz, jsAdd]
  have hneut : (getCardsRemainingByCategory (rankMap a b c d e f g h i j)).neutral =
      Jv.num (0 + f + g + h) := by
    show ["7", "8", "9"].foldl
      (fun sum card =>
        jsAdd sum (jsOrZero (getKey (rankMap a b c d e f g h i j) card)))
      (Jv.num 0) = _
    simp only [List.foldl_cons, List.foldl_nil]
    rw [show getKey (rankMap a b c d e f g h i j) "7" = Jv.num f from rfl,
      show getKey (rankMap a b c d e f g h i j) "8" = Jv.num g from rfl,
      show getKey (rankMap a b c d e f g h i j) "9" = Jv.num h from rfl]
    simp only [horz, jsAdd]
  have hminus : (getCardsRemainingByCategory (rankMap a b c d e f g h i j)).minusOne =
      Jv.num (i + j) := by
    show jsAdd (jsOrZero (getKey (rankMap a b c d e f g h i j) "10"))
      (jsOrZero (getKey (rankMap a b c d e f g h i j) "A")) = _
    rw [show getKey (rankMap a b c d e f g h i j) "10" = Jv.num i from rfl,
      show getKey (rankMap a b c d e f g h i j) "A" = Jv.num j from rfl]
    simp only [horz, jsAdd]
  constructor
  · rw [hplus, hneut, hminus, htot]
    simp only [jsAdd, Jv.num.injEq]
    ring
  · intro h0
    rw [htot] at h0
    have hsum : 0 + a + b + c + d + e + f + g + h + i + j = 0 := by
      simpa only [Jv.num.injEq] using h0
    have hne : ¬ jsGt (getTotalCardsRemaining (rankMap a b c d e f g h i j))
        (Jv.num 0) = true := by
      rw [htot]
      simp only [jsGt, decide_eq_true_eq, not_lt]
      linarith
    refine ⟨?_, ?_, ?_⟩
    · show (if jsGt (getTotalCardsRemaining (rankMap a b c d e f g h i j))
        (Jv.num 0) = true then
          jvToFixed1 (jsMul (jsDiv
            (getCardsRemainingByCategory (rankMap a b c d e f g h i j)).plusOne
            (getTotalCardsRemaining (rankMap a b c d e f g h i j))) (Jv.num 100))
        else "0.0") = "0.0"
      rw [if_neg hne]
    · show (if jsGt (getTotalCardsRemaining (rankMap a b c d e f g h i j))
        (Jv.num 0) = true then
          jvToFixed1 (jsMul (jsDiv
            (getCardsRemainingByCategory (rankMap a b c d e f g h i j)).neutral
            (getTotalCardsRemaining (rankMap a b c d e f g h i j))) (Jv.num 100))
        else "0.0") = "0.0"
      rw [if_neg hne]
    · show (if jsGt (getTotalCardsRemaining (rankMap a b c d e f g h i j))
        (Jv.num 0) = true then
          jvToFixed1 (jsMul (jsDiv
            (getCardsRemainingByCategory (rankMap a b c d e f g h i j)).minusOne
            (getTotalCardsRemaining (rankMap a b c d e f g h i j))) (Jv.num 100))
        else "0.0") = "0.0"
      rw [if_neg hne]

/-- Witness for C10: the all-zero shoe reports '0.0' for the +1 bucket
percentage. -/
theorem claim_C10_bucket_totals_witness :
    (getCardsRemainingByCategory (rankMap 0 0 0 0 0 0 0 0 0 0)).plusOnePercent =
      "0.0" := by
  have h0 : getTotalCardsRemaining (rankMap 0 0 0 0 0 0 0 0 0 0) = Jv.num 0 := by
    simp [getTotalCardsRemaining, rankMap, jsAdd]
  exact ((claim_C10_bucket_totals 0 0 0 0 0 0 0 0 0 0).2 h0).1
